import Mathlib

/-!
Shallow embedding of the xnote-server note endpoints (src/server.js).

A Mongo document store is a `List Note`; `findById` models `Note.findById`,
`saveNote` models `document.save()` (replace the record with the same id).
Since the schema has `timestamps: true`, every save and every
`findByIdAndUpdate` sets `updatedAt` to the current time.  Timestamps are
modelled as `Int` milliseconds; a `null` date is `Option.none`.
Each request handler takes the current store and the current time and
returns the new store together with the HTTP result (`Except` for the
404 "Note not found" path).
-/

namespace XNote

/-- A note record, after the `noteSchema` in server.js: email, title, content,
color, pinned, archived, the soft-delete pair `deleted`/`deletedAt`, and the
store-maintained `createdAt`/`updatedAt` timestamps.  `id` is the Mongo `_id`. -/
structure Note where
  id : Nat
  email : String
  title : String
  content : String
  color : String
  pinned : Bool
  archived : Bool
  deleted : Bool
  deletedAt : Option Int
  createdAt : Int
  updatedAt : Int
deriving Repr, DecidableEq

/-- The note store. -/
abbrev Store := List Note

/-- `Note.findById`: first record whose `_id` matches. -/
def findById (store : Store) (id : Nat) : Option Note :=
  store.find? (fun n => n.id == id)

/-- `document.save()` on a fetched document: the record with this id is
replaced by the mutated document. -/
def saveNote (store : Store) (n : Note) : Store :=
  store.map (fun m => if m.id == n.id then n else m)

/-- Body of `POST /api/notes`: the handler destructures exactly
`{ title, content, email, color, pinned, archived }` from the request. -/
structure CreateBody where
  email : String
  title : Option String
  content : Option String
  color : Option String
  pinned : Option Bool
  archived : Option Bool

/-- `POST /api/notes`: build a note from the body, schema defaults filling the
missing fields (`title`/`content` default `""`, `color` `"#ffffff"`, flags
`false`, `deleted` `false`, `deletedAt` `null`), and insert it. -/
def createNote (store : Store) (newId : Nat) (b : CreateBody) (now : Int) :
    Store × Note :=
  let n : Note :=
    { id := newId
      email := b.email
      title := b.title.getD ""
      content := b.content.getD ""
      color := b.color.getD "#ffffff"
      pinned := b.pinned.getD false
      archived := b.archived.getD false
      deleted := false
      deletedAt := none
      createdAt := now
      updatedAt := now }
  (store ++ [n], n)

/-- Body of `PUT /api/notes/:id`: the handler passes `{ $set: req.body }`, so
any subset of the schema fields may be set; `some v` means the field is
present in the body. -/
structure UpdateBody where
  email : Option String
  title : Option String
  content : Option String
  color : Option String
  pinned : Option Bool
  archived : Option Bool
  deleted : Option Bool
  deletedAt : Option (Option Int)

/-- Effect of `$set: body` on one document; `timestamps: true` makes
`findByIdAndUpdate` also set `updatedAt`. -/
def applySet (n : Note) (b : UpdateBody) (now : Int) : Note :=
  { n with
    email := b.email.getD n.email
    title := b.title.getD n.title
    content := b.content.getD n.content
    color := b.color.getD n.color
    pinned := b.pinned.getD n.pinned
    archived := b.archived.getD n.archived
    deleted := b.deleted.getD n.deleted
    deletedAt := b.deletedAt.getD n.deletedAt
    updatedAt := now }

/-- `PUT /api/notes/:id` (partial update): 404 if the id does not resolve,
otherwise `$set` the body on the record. -/
def updateNote (store : Store) (id : Nat) (b : UpdateBody) (now : Int) :
    Store × Except String Note :=
  match findById store id with
  | none => (store, .error "Note not found")
  | some n =>
      let n := applySet n b now
      (saveNote store n, .ok n)

/-- Mutation performed by the trash handler: `note.deleted = true;
note.deletedAt = new Date()`, and `save()` bumps `updatedAt`. -/
def trashTransform (n : Note) (now : Int) : Note :=
  { n with deleted := true, deletedAt := some now, updatedAt := now }

/-- `PUT /api/notes/:id/trash` (soft delete). -/
def trashNote (store : Store) (id : Nat) (now : Int) :
    Store × Except String Note :=
  match findById store id with
  | none => (store, .error "Note not found")
  | some n =>
      let n := trashTransform n now
      (saveNote store n, .ok n)

/-- Mutation performed by the restore handler: `note.deleted = false;
note.deletedAt = null`, and `save()` bumps `updatedAt`. -/
def restoreTransform (n : Note) (now : Int) : Note :=
  { n with deleted := false, deletedAt := none, updatedAt := now }

/-- `PUT /api/notes/:id/restore`. -/
def restoreNote (store : Store) (id : Nat) (now : Int) :
    Store × Except String Note :=
  match findById store id with
  | none => (store, .error "Note not found")
  | some n =>
      let n := restoreTransform n now
      (saveNote store n, .ok n)

/-- `PATCH /api/notes/:id/pin`: `note.pinned = !note.pinned` then `save()`. -/
def togglePin (store : Store) (id : Nat) (now : Int) :
    Store × Except String Note :=
  match findById store id with
  | none => (store, .error "Note not found")
  | some n =>
      let n := { n with pinned := !n.pinned, updatedAt := now }
      (saveNote store n, .ok n)

/-- `PATCH /api/notes/:id/archive`: `note.archived = !note.archived` then
`save()`. -/
def toggleArchive (store : Store) (id : Nat) (now : Int) :
    Store × Except String Note :=
  match findById store id with
  | none => (store, .error "Note not found")
  | some n =>
      let n := { n with archived := !n.archived, updatedAt := now }
      (saveNote store n, .ok n)

/-- Milliseconds per day, as in `TRASH_RETENTION_DAYS * 24 * 60 * 60 * 1000`. -/
def msPerDay : Int := 24 * 60 * 60 * 1000

/-- The Mongo filter `{ deleted: true, deletedAt: { $lte: cutoff } }`:
`$lte` on a date matches only documents whose `deletedAt` is an actual date
`≤ cutoff`; a `null` `deletedAt` never matches. -/
def purgeMatch (cutoff : Int) (n : Note) : Bool :=
  n.deleted &&
    (match n.deletedAt with
     | some t => decide (t ≤ cutoff)
     | none => false)

/-- One tick of the cron purge job: `cutoff = Date.now() - retention·day`,
then `Note.deleteMany({ deleted: true, deletedAt: { $lte: cutoff } })`. -/
def purgeTick (store : Store) (now : Int) (retentionDays : Int) : Store :=
  store.filter (fun n => !purgeMatch (now - retentionDays * msPerDay) n)

/-- The spec invariant on one record: `deleted == true` iff
`deletedAt != null`. -/
def invOk (n : Note) : Bool :=
  n.deleted == n.deletedAt.isSome

/-- Field equality of two records on every field except `updatedAt`. -/
def eqExceptUpdatedAt (a b : Note) : Bool :=
  a.id == b.id && a.email == b.email && a.title == b.title &&
  a.content == b.content && a.color == b.color && a.pinned == b.pinned &&
  a.archived == b.archived && a.deleted == b.deleted &&
  a.deletedAt == b.deletedAt && a.createdAt == b.createdAt

/-- The sort order of `GET /api/notes/:email`:
`.sort({ pinned: -1, createdAt: -1 })`, i.e. pinned records first, then
newer `createdAt` first. -/
def activeR (a b : Note) : Prop :=
  (a.pinned = true ∧ b.pinned = false) ∨
  (a.pinned = b.pinned ∧ b.createdAt ≤ a.createdAt)

instance : DecidableRel activeR := fun a b => by
  unfold activeR; infer_instance

instance : IsTotal Note activeR := by
  constructor
  intro a b
  unfold activeR
  rcases ha : a.pinned <;> rcases hb : b.pinned <;>
    rcases Int.le_total b.createdAt a.createdAt with h | h <;> simp [h]

instance : IsTrans Note activeR := by
  constructor
  intro a b c hab hbc
  unfold activeR at *
  rcases hab with ⟨h1, h2⟩ | ⟨h1, h2⟩ <;> rcases hbc with ⟨h3, h4⟩ | ⟨h3, h4⟩
  · simp [h2] at h3
  · exact Or.inl ⟨h1, h3 ▸ h2⟩
  · exact Or.inl ⟨h1.trans h3, h4⟩
  · exact Or.inr ⟨h1.trans h3, le_trans h4 h2⟩

/-- `GET /api/notes/:email`: filter `{ email, deleted: false }`, sort by
pinned descending then `createdAt` descending. -/
def listActiveNotes (store : Store) (email : String) : List Note :=
  List.insertionSort activeR (store.filter (fun n => n.email == email && !n.deleted))

/-- A record returned by `findById` has the id that was looked up. -/
theorem findById_id (store : Store) (id : Nat) (n : Note)
    (h : findById store id = some n) : n.id = id := by
  have := List.find?_some h
  simpa using this

/-- Saving a document whose id resolves makes it the record `findById`
returns for that id. -/
theorem findById_saveNote_self (store : Store) (n m : Note)
    (h : findById store n.id = some m) :
    findById (saveNote store n) n.id = some n := by
  induction store with
  | nil => simp [findById] at h
  | cons a l ih =>
      by_cases ha : (a.id == n.id) = true
      · have ha' : a.id = n.id := by simpa using ha
        simp [findById, saveNote, List.find?_cons, ha']
      · simp only [findById, saveNote, List.map_cons] at h ⊢
        rw [List.find?_cons_of_neg _ (by simpa using ha)] at h
        rw [List.find?_cons_of_neg _ (by simp [ha])]
        exact ih h

/-- Every record of the store after a save is either an old record or the
saved document. -/
theorem mem_saveNote (store : Store) (x m : Note) (h : m ∈ saveNote store x) :
    m ∈ store ∨ m = x := by
  simp only [saveNote, List.mem_map] at h
  obtain ⟨a, ha, hm⟩ := h
  by_cases hid : (a.id == x.id) = true
  · right; rw [← hm]; simp [hid]
  · left; rw [← hm]; simpa [hid] using ha

/-- A concrete active note, used in witnesses and counterexamples. -/
def sampleActive : Note :=
  { id := 1, email := "u@e.com", title := "A", content := "x", color := "#ffffff",
    pinned := false, archived := false, deleted := false, deletedAt := none,
    createdAt := 0, updatedAt := 0 }

/-- A concrete trashed note (`deletedAt = 5`). -/
def sampleTrashed : Note :=
  { id := 2, email := "u@e.com", title := "B", content := "y", color := "#ffffff",
    pinned := true, archived := false, deleted := true, deletedAt := some 5,
    createdAt := 0, updatedAt := 0 }

/-- A malformed note: `deleted` true but `deletedAt` null. -/
def sampleNullTrashed : Note :=
  { id := 3, email := "u@e.com", title := "C", content := "z", color := "#ffffff",
    pinned := false, archived := true, deleted := true, deletedAt := none,
    createdAt := 0, updatedAt := 0 }

/-- C2: on a purge tick with `cutoff = now - retention`, a record of the
store with `deleted == true` and `deletedAt ≤ cutoff` is removed, a record
whose `deletedAt` is more recent than the cutoff is kept, and in general a
record survives the tick iff the Mongo purge filter does not match it. -/
theorem purgeTick_exact (store : Store) (now ret t : Int) (n : Note)
    (hmem : n ∈ store) :
    (n ∈ purgeTick store now ret ↔ purgeMatch (now - ret * msPerDay) n = false) ∧
    (n.deleted = true → n.deletedAt = some t → t ≤ now - ret * msPerDay →
      n ∉ purgeTick store now ret) ∧
    (n.deletedAt = some t → now - ret * msPerDay < t →
      n ∈ purgeTick store now ret) := by
  have hchar : n ∈ purgeTick store now ret ↔
      purgeMatch (now - ret * msPerDay) n = false := by
    simp [purgeTick, List.mem_filter, hmem]
  refine ⟨hchar, ?_, ?_⟩
  · intro hd hda hle
    rw [hchar]
    simp [purgeMatch, hd, hda, hle]
  · intro hda hlt
    rw [hchar]
    simp [purgeMatch, hda]
    intro
    omega

/-- Witness for C2: a note trashed at time 5 is purged once `now` is 20 days,
but survives a tick at `now = 6` (the cutoff is then in the past). -/
theorem purgeTick_exact_witness :
    sampleTrashed ∉ purgeTick [sampleTrashed] (20 * msPerDay) 7 ∧
    sampleTrashed ∈ purgeTick [sampleTrashed] 6 7 := by
  constructor
  · exact (purgeTick_exact [sampleTrashed] (20 * msPerDay) 7 5 sampleTrashed
      (by simp)).2.1 rfl rfl (by decide)
  · exact (purgeTick_exact [sampleTrashed] 6 7 5 sampleTrashed
      (by simp)).2.2 rfl (by decide)

/-- C4: the trash endpoint on a resolving id returns the note with
`deleted = true` and `deletedAt = now` and stores it under that id; on a
non-resolving id it returns NotFound and leaves the store unchanged. -/
theorem trashNote_found_and_notfound (store : Store) (id : Nat) (now : Int) :
    (∀ n, findById store id = some n →
      (trashNote store id now).2 = .ok (trashTransform n now) ∧
      (trashTransform n now).deleted = true ∧
      (trashTransform n now).deletedAt = some now ∧
      findById (trashNote store id now).1 id = some (trashTransform n now)) ∧
    (findById store id = none →
      trashNote store id now = (store, .error "Note not found")) := by
  constructor
  · intro n h
    have hid : n.id = id := findById_id store id n h
    refine ⟨by simp [trashNote, h], rfl, rfl, ?_⟩
    have h1 : findById store (trashTransform n now).id = some n := by
      simpa [trashTransform, hid] using h
    have h2 := findById_saveNote_self store (trashTransform n now) n h1
    simpa [trashNote, h, trashTransform, hid] using h2
  · intro h
    simp [trashNote, h]

/-- Witness for C4: both branches at concrete inputs. -/
theorem trashNote_found_and_notfound_witness :
    (trashNote [sampleActive] 1 50).2 = .ok (trashTransform sampleActive 50) ∧
    trashNote [sampleActive] 9 50 = ([sampleActive], .error "Note not found") := by
  constructor
  · exact ((trashNote_found_and_notfound [sampleActive] 1 50).1 sampleActive rfl).1
  · exact (trashNote_found_and_notfound [sampleActive] 9 50).2 rfl

/-- C7: a pin toggle writes the negation of the current flag, and toggling
twice returns the flag to its original value. -/
theorem togglePin_twice (store : Store) (id : Nat) (t1 t2 : Int) (n : Note)
    (h : findById store id = some n) :
    ∃ n1 n2,
      (togglePin store id t1).2 = .ok n1 ∧ n1.pinned = !n.pinned ∧
      (togglePin (togglePin store id t1).1 id t2).2 = .ok n2 ∧
      n2.pinned = n.pinned := by
  have hid : n.id = id := findById_id store id n h
  refine ⟨{ n with pinned := !n.pinned, updatedAt := t1 },
          { n with pinned := !!n.pinned, updatedAt := t2 }, by simp [togglePin, h],
          rfl, ?_, by simp⟩
  have h1 : findById store ({ n with pinned := !n.pinned, updatedAt := t1 } : Note).id
      = some n := by simpa [hid] using h
  have h2 := findById_saveNote_self store
    { n with pinned := !n.pinned, updatedAt := t1 } n h1
  have hfind : findById (saveNote store { n with pinned := !n.pinned, updatedAt := t1 }) id
      = some { n with pinned := !n.pinned, updatedAt := t1 } := by
    simpa [hid] using h2
  simp [togglePin, h, hfind]

/-- Witness for C7: pin of the sample note is false, true after one toggle,
false again after two. -/
theorem togglePin_twice_witness :
    ((togglePin (togglePin [sampleActive] 1 3).1 1 4).2).map Note.pinned
      = .ok false := by
  obtain ⟨n1, n2, h1, h2, h3, h4⟩ := togglePin_twice [sampleActive] 1 3 4 sampleActive rfl
  rw [h3]
  show Except.ok n2.pinned = Except.ok false
  rw [h4]
  rfl

/-- C8: pin toggle on a non-resolving id returns NotFound and leaves the
store unchanged (no record created or modified). -/
theorem togglePin_notfound (store : Store) (id : Nat) (now : Int)
    (h : findById store id = none) :
    togglePin store id now = (store, .error "Note not found") := by
  simp [togglePin, h]

/-- Witness for C8 at a concrete non-resolving id. -/
theorem togglePin_notfound_witness :
    togglePin [sampleActive] 9 3 = ([sampleActive], .error "Note not found") :=
  togglePin_notfound [sampleActive] 9 3 rfl

/-- C9: trash does not check the current state: on an already-trashed note it
succeeds and overwrites `deletedAt` with the current time. -/
theorem trashNote_on_trashed (store : Store) (id : Nat) (now : Int) (n : Note)
    (h : findById store id = some n) (_hd : n.deleted = true) :
    (trashNote store id now).2 = .ok (trashTransform n now) ∧
    (trashTransform n now).deleted = true ∧
    (trashTransform n now).deletedAt = some now :=
  ⟨by simp [trashNote, h], rfl, rfl⟩

/-- Witness for C9: re-trashing the sample trashed note (old `deletedAt = 5`)
at time 99 rewrites `deletedAt` to 99. -/
theorem trashNote_on_trashed_witness :
    (trashNote [sampleTrashed] 2 99).2.map Note.deletedAt = .ok (some 99) := by
  obtain ⟨h1, _, h3⟩ := trashNote_on_trashed [sampleTrashed] 2 99 sampleTrashed rfl rfl
  rw [h1]
  show Except.ok (trashTransform sampleTrashed 99).deletedAt = Except.ok (some 99)
  rw [h3]

/-- C10: the purge filter never matches a record with `deletedAt = null`,
even when its `deleted` flag is true, so the scheduler never deletes it. -/
theorem purgeTick_keeps_null_deletedAt (store : Store) (now ret : Int) (n : Note)
    (hmem : n ∈ store) (hnull : n.deletedAt = none) :
    n ∈ purgeTick store now ret := by
  simp [purgeTick, List.mem_filter, purgeMatch, hnull, hmem]

/-- Witness for C10: the note with `deleted = true` and `deletedAt = null`
survives a tick far past any retention window. -/
theorem purgeTick_keeps_null_deletedAt_witness :
    sampleNullTrashed ∈ purgeTick [sampleNullTrashed] (20 * msPerDay) 7 :=
  purgeTick_keeps_null_deletedAt [sampleNullTrashed] (20 * msPerDay) 7
    sampleNullTrashed (by simp) rfl

/-- C5: the per-user active listing returns exactly the notes with this
email and `deleted = false`, sorted by `pinned` descending then `createdAt`
descending, and never includes a deleted note. -/
theorem listActiveNotes_exact (store : Store) (email : String) (n : Note) :
    (n ∈ listActiveNotes store email ↔
      n ∈ store ∧ n.email = email ∧ n.deleted = false) ∧
    List.Pairwise
      (fun a b => (a.pinned = true ∧ b.pinned = false) ∨
        (a.pinned = b.pinned ∧ b.createdAt ≤ a.createdAt))
      (listActiveNotes store email) ∧
    (n.deleted = true → n ∉ listActiveNotes store email) := by
  have hmem : n ∈ listActiveNotes store email ↔
      n ∈ store ∧ n.email = email ∧ n.deleted = false := by
    simp [listActiveNotes, List.mem_filter]
  refine ⟨hmem, ?_, ?_⟩
  · have hs := List.sorted_insertionSort activeR
      (store.filter (fun m => m.email == email && !m.deleted))
    exact hs
  · intro hd h2
    rw [hmem] at h2
    have h3 := h2.2.2
    rw [hd] at h3
    exact absurd h3 (by simp)

/-- Witness for C5: the sample trashed note is excluded from the listing of
its user while the active one is included. -/
theorem listActiveNotes_exact_witness :
    sampleTrashed ∉ listActiveNotes [sampleActive, sampleTrashed] "u@e.com" ∧
    sampleActive ∈ listActiveNotes [sampleActive, sampleTrashed] "u@e.com" := by
  constructor
  · exact (listActiveNotes_exact [sampleActive, sampleTrashed] "u@e.com"
      sampleTrashed).2.2 rfl
  · exact (listActiveNotes_exact [sampleActive, sampleTrashed] "u@e.com"
      sampleActive).1.mpr ⟨by simp, rfl, rfl⟩

/-- Update body that sets `deleted: true` and nothing else. -/
def deleteOnlyBody : UpdateBody :=
  { email := none, title := none, content := none, color := none,
    pinned := none, archived := none, deleted := some true, deletedAt := none }

/-- C1 counterexample: the partial-update endpoint with body
`{ deleted: true }` maps a store satisfying the invariant to a stored record
with `deleted = true` and `deletedAt = null`, breaking the invariant. -/
theorem update_breaks_invariant :
    invOk sampleActive = true ∧
    (updateNote [sampleActive] 1 deleteOnlyBody 100).2.map invOk = .ok false :=
  ⟨rfl, rfl⟩

/-- Records of a store after a save all satisfy the invariant when the old
records and the saved document do. -/
theorem invOk_saveNote (store : Store) (x : Note)
    (hinv : ∀ m ∈ store, invOk m = true) (hx : invOk x = true) :
    ∀ m ∈ saveNote store x, invOk m = true := by
  intro m hm
  rcases mem_saveNote store x m hm with h | rfl
  · exact hinv m h
  · exact hx

/-- C1 (amended): create, trash, restore and both toggles preserve the
`deleted == true ↔ deletedAt != null` invariant on every record of the
store; the partial update preserves it whenever the body sets neither
`deleted` nor `deletedAt` (the counterexample shows it can break it
otherwise). -/
theorem invariant_preserved (store : Store) (id newId : Nat) (now : Int)
    (cb : CreateBody) (b : UpdateBody)
    (hinv : ∀ m ∈ store, invOk m = true) :
    (∀ m ∈ (createNote store newId cb now).1, invOk m = true) ∧
    (∀ m ∈ (trashNote store id now).1, invOk m = true) ∧
    (∀ m ∈ (restoreNote store id now).1, invOk m = true) ∧
    (∀ m ∈ (togglePin store id now).1, invOk m = true) ∧
    (∀ m ∈ (toggleArchive store id now).1, invOk m = true) ∧
    (b.deleted = none → b.deletedAt = none →
      ∀ m ∈ (updateNote store id b now).1, invOk m = true) := by
  refine ⟨?_, ?_, ?_, ?_, ?_, ?_⟩
  · intro m hm
    rcases List.mem_append.mp hm with h | h
    · exact hinv m h
    · rw [List.mem_singleton.mp h]; rfl
  · rcases hfind : findById store id with _ | n
    · simpa [trashNote, hfind] using hinv
    · simp only [trashNote, hfind]
      exact invOk_saveNote store (trashTransform n now) hinv rfl
  · rcases hfind : findById store id with _ | n
    · simpa [restoreNote, hfind] using hinv
    · simp only [restoreNote, hfind]
      exact invOk_saveNote store (restoreTransform n now) hinv rfl
  · rcases hfind : findById store id with _ | n
    · simpa [togglePin, hfind] using hinv
    · simp only [togglePin, hfind]
      exact invOk_saveNote store _ hinv
        (hinv n (List.mem_of_find?_eq_some hfind))
  · rcases hfind : findById store id with _ | n
    · simpa [toggleArchive, hfind] using hinv
    · simp only [toggleArchive, hfind]
      exact invOk_saveNote store _ hinv
        (hinv n (List.mem_of_find?_eq_some hfind))
  · intro hb1 hb2
    rcases hfind : findById store id with _ | n
    · simpa [updateNote, hfind] using hinv
    · simp only [updateNote, hfind]
      refine invOk_saveNote store (applySet n b now) hinv ?_
      have hn := hinv n (List.mem_of_find?_eq_some hfind)
      simpa [applySet, invOk, hb1, hb2] using hn

/-- Witness for C1: the trashed form of the sample active note satisfies the
invariant after the trash endpoint runs on a store that satisfied it. -/
theorem invariant_preserved_witness :
    invOk (trashTransform sampleActive 7) = true := by
  have h := (invariant_preserved [sampleActive] 1 4 7
    { email := "u@e.com", title := none, content := none, color := none,
      pinned := none, archived := none } deleteOnlyBody
    (by intro m hm; rw [List.mem_singleton.mp hm]; rfl)).2.1
  have hstore : (trashNote [sampleActive] 1 7).1
      = [trashTransform sampleActive 7] := rfl
  exact h (trashTransform sampleActive 7)
    (by rw [hstore]; exact List.mem_singleton.mpr rfl)

/-- C3 counterexample: on an already-trashed note (`deleted = true`,
`deletedAt = 5`), trash-then-restore succeeds but yields a record that
differs from the original in `deleted` and `deletedAt`, not only in
`updatedAt`. -/
theorem trash_restore_not_identity_on_trashed :
    (trashNote [sampleTrashed] 2 10).2 = .ok (trashTransform sampleTrashed 10) ∧
    (restoreNote (trashNote [sampleTrashed] 2 10).1 2 20).2.map
      (fun m => eqExceptUpdatedAt m sampleTrashed) = .ok false :=
  ⟨rfl, rfl⟩

/-- C3 (amended): for an existing active note (`deleted = false`,
`deletedAt = null`), trash then restore yields a record field-equal to the
original on every field except `updatedAt`, which becomes the restore
time. -/
theorem trash_restore_roundtrip (store : Store) (id : Nat) (t1 t2 : Int)
    (n : Note) (h : findById store id = some n) (hdel : n.deleted = false)
    (hdat : n.deletedAt = none) :
    ∃ n2, (restoreNote (trashNote store id t1).1 id t2).2 = .ok n2 ∧
      eqExceptUpdatedAt n2 n = true ∧ n2.updatedAt = t2 := by
  have hid : n.id = id := findById_id store id n h
  have h1 : findById store (trashTransform n t1).id = some n := by
    simpa [trashTransform, hid] using h
  have h2 := findById_saveNote_self store (trashTransform n t1) n h1
  have hfind : findById (saveNote store (trashTransform n t1)) id
      = some (trashTransform n t1) := by
    simpa [trashTransform, hid] using h2
  refine ⟨restoreTransform (trashTransform n t1) t2, ?_, ?_, rfl⟩
  · simp [trashNote, restoreNote, h, hfind]
  · simp [restoreTransform, trashTransform, eqExceptUpdatedAt, hdel, hdat]

/-- Witness for C3: round-tripping the sample active note through trash and
restore gives back a record field-equal to it outside `updatedAt`. -/
theorem trash_restore_roundtrip_witness :
    (restoreNote (trashNote [sampleActive] 1 10).1 1 20).2.map
      (fun m => eqExceptUpdatedAt m sampleActive) = .ok true := by
  obtain ⟨n2, h1, h2, h3⟩ :=
    trash_restore_roundtrip [sampleActive] 1 10 20 sampleActive rfl rfl rfl
  rw [h1]
  show Except.ok (eqExceptUpdatedAt n2 sampleActive) = Except.ok true
  rw [h2]

/-- C6 counterexample: toggling pin at time 5 on a note with `updatedAt = 0`
also changes `updatedAt`, so the toggle does not leave every other field of
the record unchanged. -/
theorem togglePin_changes_updatedAt :
    (togglePin [sampleActive] 1 5).2
      = .ok { sampleActive with pinned := true, updatedAt := 5 } ∧
    ({ sampleActive with pinned := true, updatedAt := 5 } : Note)
      ≠ { sampleActive with pinned := true } := by
  refine ⟨rfl, fun hcontra => ?_⟩
  have h5 := congrArg Note.updatedAt hcontra
  simp [sampleActive] at h5

/-- C6 (amended): pin and archive toggles change only the toggled flag and
the store-maintained `updatedAt`, leaving every other field unchanged,
regardless of the note's `deleted` state. -/
theorem toggles_flip_only_flag (store : Store) (id : Nat) (now : Int)
    (n : Note) (h : findById store id = some n) :
    (togglePin store id now).2
      = .ok { n with pinned := !n.pinned, updatedAt := now } ∧
    (toggleArchive store id now).2
      = .ok { n with archived := !n.archived, updatedAt := now } :=
  ⟨by simp [togglePin, h], by simp [toggleArchive, h]⟩

/-- Witness for C6: toggling pin on the sample trashed note flips the flag
and stamps `updatedAt`, even though the note is in the trash. -/
theorem toggles_flip_only_flag_witness :
    (togglePin [sampleTrashed] 2 9).2
      = .ok { sampleTrashed with pinned := !sampleTrashed.pinned, updatedAt := 9 } :=
  (toggles_flip_only_flag [sampleTrashed] 2 9 sampleTrashed rfl).1

end XNote
